import Mathlib

/-!
Shallow embedding of the Watson-Glaser WhatsApp bot (src/index.js).

The embedding covers the session data model, the in-memory fallback session
store (`memGet` / `memSet`), the question selector (`pickNextQuestion`), the
scorer, and the `/whatsapp/webhook` handler modelled as a pure step function
over a `Session`.  Randomness (`Math.random`), the clock (`Date.now`) and the
inbound body are explicit parameters of the step.  The handler dereferences
`session.currentQ.options` while in `WAITING_ANSWER`; a step on a session
where that dereference would throw is modelled as `none`.
-/

namespace WGBot

/-- The `state` field of a session: `"IDLE" | "ASKING" | "WAITING_ANSWER"`. -/
inductive SState where
  | IDLE
  | ASKING
  | WAITING_ANSWER
  deriving DecidableEq, Repr

/-- A question row as produced by `readQuestions` (src/index.js lines 44-53).
The JS field `section` is spelled `sect` here (`section` is a Lean keyword);
`passage` and `rationale` may be `undefined` in JS, hence `Option`. -/
structure Question where
  id : String
  sect : String
  stem : String
  passage : Option String
  options : List String
  correct : Int
  rationale : Option String
  difficulty : String
  deriving DecidableEq, Repr

/-- An entry of `session.answers` (src/index.js lines 138-145). -/
structure Answer where
  qid : String
  sect : String
  selected : Int
  correct : Int
  isCorrect : Bool
  latency : Int
  deriving DecidableEq, Repr

/-- A session record (default shape at src/index.js lines 105-111; the
`currentQ` field is absent, i.e. `none`, until a question is dispatched). -/
structure Session where
  state : SState
  sectionIndex : Nat
  asked : List String
  answers : List Answer
  qStart : Nat
  currentQ : Option Question
  deriving DecidableEq, Repr

/-- The default session built when the store has no (unexpired) record. -/
def freshSession (now : Nat) : Session :=
  { state := .IDLE, sectionIndex := 0, asked := [], answers := [],
    qStart := now, currentQ := none }

/-- The list `const SECTIONS = [...]` (src/index.js line 91). -/
def SECTIONS : List String :=
  ["Inference", "Assumptions", "Deduction", "Interpretation", "Arguments"]

/-- Truthiness of an optional JS string: `undefined` and `""` are falsy. -/
def optTruthy : Option String → Bool
  | none => false
  | some s => !(s == "")

/-- The regex test `/^start|test$/i.test(body)` (src/index.js line 116).
By JS alternation precedence this is `(^start)|(test$)`: it matches any text
that starts with `start` or ends with `test`, case-insensitively. -/
def startMatches (body : String) : Bool :=
  let cs := body.data.map Char.toLower
  List.isPrefixOf ['s', 't', 'a', 'r', 't'] cs ||
  List.isSuffixOf ['t', 'e', 's', 't'] cs

/-- Whitespace removal from both ends of a character list. -/
def trimChars (cs : List Char) : List Char :=
  ((cs.dropWhile Char.isWhitespace).reverse.dropWhile Char.isWhitespace).reverse

/-- The JS string `trim()` (src/index.js line 102). -/
def trimJS (s : String) : String :=
  String.mk (trimChars s.data)

/-- Value of a list of decimal digit characters. -/
def digitsVal (ds : List Char) : Nat :=
  ds.foldl (fun n c => 10 * n + (c.toNat - 48)) 0

/-- The call `parseInt(body, 10)` (src/index.js line 128): skip leading whitespace,
optional sign, then the maximal run of decimal digits; `NaN` (here `none`)
when no digit follows. -/
def parseIntJS (s : String) : Option Int :=
  match trimChars s.data with
  | '-' :: rest =>
    let ds := rest.takeWhile Char.isDigit
    if ds.isEmpty then none else some (-(digitsVal ds : Int))
  | '+' :: rest =>
    let ds := rest.takeWhile Char.isDigit
    if ds.isEmpty then none else some (digitsVal ds : Int)
  | rest =>
    let ds := rest.takeWhile Char.isDigit
    if ds.isEmpty then none else some (digitsVal ds : Int)

/-- The selector `pickNextQuestion(qs, section, askedIds)` (src/index.js lines 93-97).
`Math.floor(Math.random() * pool.length)` is modelled by `rand % pool.length`
for an arbitrary natural `rand`. -/
def pickNextQuestion (qs : List Question) (sect : String) (askedIds : List String)
    (rand : Nat) : Option Question :=
  let pool := qs.filter (fun q => q.sect == sect && !(askedIds.contains q.id))
  if h : pool.length = 0 then none
  else some (pool.get ⟨rand % pool.length, Nat.mod_lt _ (Nat.pos_of_ne_zero h)⟩)

/-! ### Outbound message texts -/

/-- Acknowledgment sent when the start trigger fires (src/index.js lines 120-123). -/
def startAck : String :=
  "Watson-Glaser test started.\nYou will get one question per section.\nReply with the number of your chosen option."

/-- Validation-error reply (src/index.js line 132). -/
def validationMsg (q : Question) : String :=
  "Please reply with a number 1-" ++ toString q.options.length ++ "."

/-- Skip notice (src/index.js line 217). -/
def skipMsg (sect : String) : String :=
  "Skipping " ++ sect ++ " (no questions available)."

/-- The numbered 1-based option list (src/index.js line 223). -/
def numberOptions (opts : List String) : String :=
  String.intercalate "\n"
    (((List.range opts.length).zip opts).map
      (fun p => toString (p.1 + 1) ++ ") " ++ p.2))

/-- The question message (src/index.js lines 221-228). -/
def questionMsg (sect : String) (q : Question) : String :=
  "Section: " ++ sect ++
  (if optTruthy q.passage then "\n\nPassage:\n" ++ q.passage.getD "" else "") ++
  "\n\nQuestion:\n" ++ q.stem ++ "\n\n" ++ numberOptions q.options ++
  "\n\nReply with 1-" ++ toString q.options.length ++ "."

/-! ### Scoring (src/index.js lines 164-201) -/

/-- Per-section incorrect question ids, in answer order
(`bySection[s].wrongIds`, src/index.js lines 168-171). -/
def wrongIdsFor (answers : List Answer) (s : String) : List String :=
  (answers.filter (fun a => a.sect == s && !a.isCorrect)).map Answer.qid

/-- The `totalCorrect` and `total` accumulation over `SECTIONS`
(src/index.js lines 174-181): summing `bySection[s].correct` and
`bySection[s].total` for each section in order. -/
def scoreTotals (answers : List Answer) : Nat × Nat :=
  SECTIONS.foldl
    (fun acc s =>
      let m := answers.filter (fun a => a.sect == s)
      (acc.1 + (m.filter (fun a => a.isCorrect)).length, acc.2 + m.length))
    (0, 0)

/-- The expression `total ? Math.round((100 * totalCorrect) / total) : 0` (src/index.js
line 182); `Math.round` rounds half away from zero upward, i.e. `⌊x + 1/2⌋`
on nonnegative inputs, which is Mathlib's `round` on `ℚ`. -/
def pctOf (c t : Nat) : Int :=
  if t = 0 then 0 else round ((100 * c : ℚ) / t)

/-- The loop body of the feedback pass for one section (src/index.js
lines 185-191): skip when there is no incorrect answer, look up the first
incorrect question, emit a line only when its rationale is truthy. -/
def feedbackLineFor (questions : List Question) (answers : List Answer)
    (s : String) : Option String :=
  match wrongIdsFor answers s with
  | [] => none
  | w :: _ =>
    match questions.find? (fun q => q.id == w) with
    | none => none
    | some qw =>
      if optTruthy qw.rationale then some ("- " ++ s ++ ": " ++ qw.rationale.getD "")
      else none

/-- One iteration of the feedback loop: push the section's line, if any. -/
def pushLine (questions : List Question) (answers : List Answer)
    (acc : List String) (s : String) : List String :=
  match feedbackLineFor questions answers s with
  | none => acc
  | some line => acc ++ [line]

/-- The `rationaleLines` accumulation over `SECTIONS` (src/index.js lines 184-191). -/
def rationaleLines (questions : List Question) (answers : List Answer) : List String :=
  SECTIONS.foldl (pushLine questions answers) []

/-- The final score message (src/index.js lines 193-201). -/
def scoreMsg (totalCorrect total : Nat) (pct : Int) (lines : List String) : String :=
  "Test complete!\nScore: " ++ toString totalCorrect ++ "/" ++ toString total ++
  " (" ++ toString pct ++ "%)" ++
  (if lines.length > 0 then "\n\nFeedback:\n" ++ String.intercalate "\n" lines
   else "")

/-! ### The webhook handler as a pure step function -/

/-- The start trigger (src/index.js lines 116-124). -/
def stepStart (s : Session) (body : String) : Session × List String :=
  if s.state = .IDLE ∧ startMatches body then
    ({ s with state := .ASKING, sectionIndex := 0, answers := [] }, [startAck])
  else (s, [])

/-- The set `askedIds` for the current section (src/index.js lines 209-211). -/
def askedIdsFor (answers : List Answer) (sect : String) : List String :=
  (answers.filter (fun a => a.sect == sect)).map Answer.qid

/-- The `ASKING` block (src/index.js lines 163-234): score-and-reset when the
sections are exhausted, otherwise skip the section or dispatch a question. -/
def dispatch (s : Session) (questions : List Question) (rand now : Nat) :
    Session × List String :=
  if s.sectionIndex ≥ SECTIONS.length then
    let ct := scoreTotals s.answers
    ({ s with state := .IDLE },
     [scoreMsg ct.1 ct.2 (pctOf ct.1 ct.2) (rationaleLines questions s.answers)])
  else
    let sect := SECTIONS.getD s.sectionIndex ""
    match pickNextQuestion questions sect (askedIdsFor s.answers sect) rand with
    | none => ({ s with sectionIndex := s.sectionIndex + 1 }, [skipMsg sect])
    | some q =>
      ({ s with currentQ := some q, qStart := now, state := .WAITING_ANSWER,
                sectionIndex := s.sectionIndex + 1 },
       [questionMsg sect q])

/-- The Answer appended at src/index.js lines 138-145. -/
def mkAnswer (q : Question) (num : Int) (qStart now : Nat) : Answer :=
  { qid := q.id, sect := q.sect, selected := num, correct := q.correct,
    isCorrect := decide (num = q.correct),
    latency := (now : Int) - (qStart : Int) }

/-- The session after a valid answer is recorded (src/index.js lines 136-159). -/
def recordAnswer (s : Session) (q : Question) (num : Int) (now : Nat) : Session :=
  { s with answers := s.answers ++ [mkAnswer q num s.qStart now],
           state := .ASKING, currentQ := none }

/-- The answer-recording and question-dispatch stages (src/index.js
lines 127-234) run after the start trigger, on session `s1` with replies
`out1` accumulated so far.  `none` models the `TypeError` thrown at line 132
when `session.currentQ` is absent in state `WAITING_ANSWER`
(`q.options.length` on `null`). -/
def stepRest (s1 : Session) (out1 : List String) (body : String)
    (questions : List Question) (rand now : Nat) :
    Option (Session × List String) :=
  if s1.state = .WAITING_ANSWER then
    match s1.currentQ with
    | none => none
    | some q =>
      match parseIntJS body with
      | none => some (s1, out1 ++ [validationMsg q])
      | some num =>
        if num < 1 ∨ num > (q.options.length : Int) then
          some (s1, out1 ++ [validationMsg q])
        else
          let s2 := recordAnswer s1 q num now
          let r := dispatch s2 questions rand now
          some (r.1, out1 ++ r.2)
  else if s1.state = .ASKING then
    let r := dispatch s1 questions rand now
    some (r.1, out1 ++ r.2)
  else
    some (s1, out1)

/-- One full run of the webhook handler (src/index.js lines 100-238) on a
loaded session, returning the persisted session and the outbound replies. -/
def step (s : Session) (rawBody : String) (questions : List Question)
    (rand now : Nat) : Option (Session × List String) :=
  let body := trimJS rawBody
  let p := stepStart s body
  stepRest p.1 p.2 body questions rand now

/-- Sessions reachable from the fresh session by inbound-message steps (an
expired or missing store entry restarts from `freshSession`, the base case). -/
inductive Reachable : Session → Prop where
  | init (now : Nat) : Reachable (freshSession now)
  | next {s s' : Session} {body : String} {qs : List Question} {rand now : Nat}
      {out : List String} :
      Reachable s → step s body qs rand now = some (s', out) → Reachable s'

/-! ### In-memory fallback session store (src/index.js lines 57-71) -/

/-- One record of `memStore`: the stored value and its expiry timestamp. -/
structure MemRec where
  value : Session
  expires : Nat
  deriving DecidableEq

/-- The in-memory store, a map from keys to records. -/
abbrev MemStore := String → Option MemRec

/-- The store write `memSet(key, val, ttl)` (src/index.js lines 69-71): stores the value with
`expires = Date.now() + ttl * 1000`. -/
def memSet (st : MemStore) (key : String) (val : Session) (ttl : Nat)
    (now : Nat) : MemStore :=
  fun k => if k = key then some ⟨val, now + ttl * 1000⟩ else st k

/-- The store read `memGet(key)` (src/index.js lines 59-67): absent records and expired
records read as `none`; an expired record is deleted by the read.  The JS
guard is `rec.expires && Date.now() > rec.expires` (`0` is falsy). -/
def memGet (st : MemStore) (key : String) (now : Nat) :
    Option Session × MemStore :=
  match st key with
  | none => (none, st)
  | some r =>
    if r.expires ≠ 0 ∧ r.expires < now then
      (none, fun k => if k = key then none else st k)
    else
      (some r.value, st)

/-! ### Sample data for concrete checks -/

/-- A sample two-option question in the first section. -/
def sampleQ : Question :=
  { id := "q1", sect := "Inference", stem := "stem", passage := none,
    options := ["a", "b"], correct := 1, rationale := some "why",
    difficulty := "M" }

/-- The incorrect answer `2` to `sampleQ`. -/
def sampleWrongAnswer : Answer :=
  { qid := "q1", sect := "Inference", selected := 2, correct := 1,
    isCorrect := false, latency := 0 }

/-- A session waiting for an answer to `sampleQ`. -/
def sampleWaiting : Session :=
  { state := .WAITING_ANSWER, sectionIndex := 1, asked := [], answers := [],
    qStart := 0, currentQ := some sampleQ }

/-- A session in `ASKING` at the first section. -/
def sampleAsking : Session :=
  { state := .ASKING, sectionIndex := 0, asked := [], answers := [],
    qStart := 0, currentQ := none }

/-- An `IDLE` session carrying leftover answers from a completed run. -/
def sampleIdleDirty : Session :=
  { state := .IDLE, sectionIndex := 3, asked := [],
    answers := [sampleWrongAnswer], qStart := 7, currentQ := none }

/-! ### The session invariant -/

/-- Invariant maintained by the webhook step: the section index stays within
bounds, at most one answer is recorded per section, every answer belongs to a
section strictly below the current index, and in `WAITING_ANSWER` the pending
question exists, comes from the most recently consumed section, and its
section has not been answered yet. -/
def SessionInv (s : Session) : Prop :=
  s.sectionIndex ≤ SECTIONS.length ∧
  (s.answers.map Answer.sect).Nodup ∧
  (∀ a ∈ s.answers, ∃ i, i < s.sectionIndex ∧ a.sect = SECTIONS.getD i "") ∧
  (s.state = .WAITING_ANSWER →
    ∃ q, s.currentQ = some q ∧ 0 < s.sectionIndex ∧
      q.sect = SECTIONS.getD (s.sectionIndex - 1) "" ∧
      q.sect ∉ s.answers.map Answer.sect)

/-! ### Helper lemmas -/

/-- The pool predicate of `pickNextQuestion`, propositionally. -/
lemma poolPred_iff (sect : String) (askedIds : List String) (q : Question) :
    (q.sect == sect && !(askedIds.contains q.id)) = true ↔
      q.sect = sect ∧ q.id ∉ askedIds := by
  simp

/-- Whatever `pickNextQuestion` returns comes from the filtered pool. -/
lemma pickNextQuestion_some_spec {qs : List Question} {sect : String}
    {askedIds : List String} {rand : Nat} {q : Question}
    (h : pickNextQuestion qs sect askedIds rand = some q) :
    q ∈ qs ∧ q.sect = sect ∧ q.id ∉ askedIds := by
  unfold pickNextQuestion at h
  by_cases h0 :
      (qs.filter (fun q => q.sect == sect && !(askedIds.contains q.id))).length = 0
  · rw [dif_pos h0] at h
    exact Option.noConfusion h
  · rw [dif_neg h0] at h
    have hq : q ∈ qs.filter (fun q => q.sect == sect && !(askedIds.contains q.id)) := by
      rw [← Option.some_inj.mp h]
      exact List.get_mem _ _ _
    have := List.mem_filter.mp hq
    exact ⟨this.1, (poolPred_iff sect askedIds q).mp this.2⟩

/-- The selector returns `none` exactly when the pool is empty. -/
lemma pickNextQuestion_none_iff {qs : List Question} {sect : String}
    {askedIds : List String} {rand : Nat} :
    pickNextQuestion qs sect askedIds rand = none ↔
      ∀ q ∈ qs, ¬(q.sect = sect ∧ q.id ∉ askedIds) := by
  unfold pickNextQuestion
  by_cases h0 :
      (qs.filter (fun q => q.sect == sect && !(askedIds.contains q.id))).length = 0
  · rw [dif_pos h0]
    have hnil := List.length_eq_zero.mp h0
    simp only [true_iff]
    intro q hq hcontra
    have : q ∈ qs.filter (fun q => q.sect == sect && !(askedIds.contains q.id)) :=
      List.mem_filter.mpr ⟨hq, (poolPred_iff sect askedIds q).mpr hcontra⟩
    rw [hnil] at this
    simp at this
  · rw [dif_neg h0]
    simp only [reduceCtorEq, false_iff, not_forall]
    have hne : qs.filter (fun q => q.sect == sect && !(askedIds.contains q.id)) ≠ [] := by
      intro hnil
      exact h0 (by rw [hnil]; rfl)
    obtain ⟨q, hq⟩ := List.exists_mem_of_ne_nil _ hne
    have := List.mem_filter.mp hq
    exact ⟨q, this.1, not_not.mpr ((poolPred_iff sect askedIds q).mp this.2)⟩

/-- Distinct positions of `SECTIONS` hold distinct names. -/
lemma SECTIONS_getD_ne :
    ∀ j, j < SECTIONS.length → ∀ i, i < j →
      SECTIONS.getD i "" ≠ SECTIONS.getD j "" := by decide

/-! ### C3: the question selector -/

/-- C3: `pickNextQuestion` returns `none` exactly when no question of the list
has the target section and an id outside the asked set; otherwise it returns a
question of the list whose section equals the target and whose id is not in
the asked set. -/
theorem c3_pickNextQuestion_spec (qs : List Question) (sect : String)
    (askedIds : List String) (rand : Nat) :
    (pickNextQuestion qs sect askedIds rand = none ↔
      ∀ q ∈ qs, ¬(q.sect = sect ∧ q.id ∉ askedIds)) ∧
    (∀ q, pickNextQuestion qs sect askedIds rand = some q →
      q ∈ qs ∧ q.sect = sect ∧ q.id ∉ askedIds) :=
  ⟨pickNextQuestion_none_iff, fun _ h => pickNextQuestion_some_spec h⟩

/-- Witness for C3 at a concrete pool. -/
theorem c3_pickNextQuestion_spec_witness :
    sampleQ ∈ [sampleQ] ∧ sampleQ.sect = "Inference" ∧
      sampleQ.id ∉ ([] : List String) :=
  (c3_pickNextQuestion_spec [sampleQ] "Inference" [] 0).2 sampleQ (by decide)

/-! ### C7: the in-memory fallback store -/

/-- C7: on the in-memory fallback store, a `set` followed by a `get` strictly
before the TTL has elapsed returns the stored session, and a `get` strictly
after the TTL has elapsed returns `none` and deletes the entry.  `0 < setTime`
reflects the real clock (`Date.now()` is positive), which keeps the stored
expiry truthy. -/
theorem c7_memStore_roundtrip (st : MemStore) (key : String) (val : Session)
    (ttl setTime getTime : Nat) (hclock : 0 < setTime) :
    (getTime < setTime + ttl * 1000 →
      memGet (memSet st key val ttl setTime) key getTime =
        (some val, memSet st key val ttl setTime)) ∧
    (setTime + ttl * 1000 < getTime →
      (memGet (memSet st key val ttl setTime) key getTime).1 = none ∧
      (memGet (memSet st key val ttl setTime) key getTime).2 key = none) := by
  have hrec : memSet st key val ttl setTime key = some ⟨val, setTime + ttl * 1000⟩ := by
    simp [memSet]
  constructor
  · intro hbefore
    unfold memGet
    rw [hrec]
    simp only []
    rw [if_neg (by omega)]
  · intro hafter
    unfold memGet
    rw [hrec]
    simp only []
    rw [if_pos (by constructor <;> omega)]
    simp

/-- Witness for C7 at concrete times: set at `1` with a 1-second TTL, read at
`2` (value present) and at `2000` (expired, deleted). -/
theorem c7_memStore_roundtrip_witness :
    memGet (memSet (fun _ => none) "k" (freshSession 0) 1 1) "k" 2 =
      (some (freshSession 0), memSet (fun _ => none) "k" (freshSession 0) 1 1) ∧
    (memGet (memSet (fun _ => none) "k" (freshSession 0) 1 1) "k" 2000).1 = none ∧
    (memGet (memSet (fun _ => none) "k" (freshSession 0) 1 1) "k" 2000).2 "k" = none :=
  ⟨(c7_memStore_roundtrip (fun _ => none) "k" (freshSession 0) 1 1 2
      (by decide)).1 (by decide),
   (c7_memStore_roundtrip (fun _ => none) "k" (freshSession 0) 1 1 2000
      (by decide)).2 (by decide)⟩

/-- The start trigger does nothing when the session is not `IDLE`. -/
lemma stepStart_of_ne_idle {s : Session} (body : String) (h : s.state ≠ .IDLE) :
    stepStart s body = (s, []) := by
  unfold stepStart
  rw [if_neg]
  intro hc
  exact h hc.1

/-- Unfolding lemma: `step` is the start trigger followed by `stepRest`. -/
lemma step_eq (s : Session) (rawBody : String) (questions : List Question)
    (rand now : Nat) :
    step s rawBody questions rand now =
      stepRest (stepStart s (trimJS rawBody)).1 (stepStart s (trimJS rawBody)).2
        (trimJS rawBody) questions rand now := rfl

/-- On a non-`IDLE` session the start trigger is skipped. -/
lemma step_of_ne_idle {s : Session} (rawBody : String)
    (questions : List Question) (rand now : Nat) (h : s.state ≠ .IDLE) :
    step s rawBody questions rand now =
      stepRest s [] (trimJS rawBody) questions rand now := by
  rw [step_eq, stepStart_of_ne_idle _ h]

/-- Behaviour of `stepRest` in a state other than `WAITING_ANSWER` and `ASKING`. -/
lemma stepRest_of_idle {s1 : Session} (out1 : List String) (body : String)
    (questions : List Question) (rand now : Nat)
    (h1 : s1.state ≠ .WAITING_ANSWER) (h2 : s1.state ≠ .ASKING) :
    stepRest s1 out1 body questions rand now = some (s1, out1) := by
  unfold stepRest
  rw [if_neg h1, if_neg h2]

/-- Behaviour of `stepRest` in `ASKING`: the dispatch stage. -/
lemma stepRest_of_asking {s1 : Session} (out1 : List String) (body : String)
    (questions : List Question) (rand now : Nat) (h : s1.state = .ASKING) :
    stepRest s1 out1 body questions rand now =
      some ((dispatch s1 questions rand now).1,
            out1 ++ (dispatch s1 questions rand now).2) := by
  unfold stepRest
  rw [if_neg (by rw [h]; exact fun hc => SState.noConfusion hc), if_pos h]

/-- Behaviour of `stepRest` in `WAITING_ANSWER` on an unparseable body. -/
lemma stepRest_of_waiting_nan {s1 : Session} {q : Question}
    (out1 : List String) (body : String) (questions : List Question)
    (rand now : Nat) (h : s1.state = .WAITING_ANSWER) (hq : s1.currentQ = some q)
    (hnan : parseIntJS body = none) :
    stepRest s1 out1 body questions rand now =
      some (s1, out1 ++ [validationMsg q]) := by
  unfold stepRest
  rw [if_pos h, hq, hnan]

/-- Behaviour of `stepRest` in `WAITING_ANSWER` on an out-of-range numeric body. -/
lemma stepRest_of_waiting_range {s1 : Session} {q : Question} {num : Int}
    (out1 : List String) (body : String) (questions : List Question)
    (rand now : Nat) (h : s1.state = .WAITING_ANSWER) (hq : s1.currentQ = some q)
    (hnum : parseIntJS body = some num)
    (hrange : num < 1 ∨ num > (q.options.length : Int)) :
    stepRest s1 out1 body questions rand now =
      some (s1, out1 ++ [validationMsg q]) := by
  unfold stepRest
  rw [if_pos h, hq, hnum]
  simp only [if_pos hrange]

/-- Behaviour of `stepRest` in `WAITING_ANSWER` on a valid numeric body: record, then
dispatch. -/
lemma stepRest_of_waiting_valid {s1 : Session} {q : Question} {num : Int}
    (out1 : List String) (body : String) (questions : List Question)
    (rand now : Nat) (h : s1.state = .WAITING_ANSWER) (hq : s1.currentQ = some q)
    (hnum : parseIntJS body = some num)
    (hrange : ¬(num < 1 ∨ num > (q.options.length : Int))) :
    stepRest s1 out1 body questions rand now =
      some ((dispatch (recordAnswer s1 q num now) questions rand now).1,
            out1 ++ (dispatch (recordAnswer s1 q num now) questions rand now).2) := by
  unfold stepRest
  rw [if_pos h, hq, hnum]
  simp only [if_neg hrange]

/-- Behaviour of `stepRest` in `WAITING_ANSWER` with no pending question: the modelled
`TypeError` (src/index.js line 132). -/
lemma stepRest_of_waiting_no_q {s1 : Session} (out1 : List String)
    (body : String) (questions : List Question) (rand now : Nat)
    (h : s1.state = .WAITING_ANSWER) (hq : s1.currentQ = none) :
    stepRest s1 out1 body questions rand now = none := by
  unfold stepRest
  rw [if_pos h, hq]

/-- The skip branch of `dispatch`. -/
lemma dispatch_of_empty_pool {s : Session} (questions : List Question)
    (rand now : Nat) (hlt : s.sectionIndex < SECTIONS.length)
    (hempty : pickNextQuestion questions (SECTIONS.getD s.sectionIndex "")
        (askedIdsFor s.answers (SECTIONS.getD s.sectionIndex "")) rand = none) :
    dispatch s questions rand now =
      ({ s with sectionIndex := s.sectionIndex + 1 },
       [skipMsg (SECTIONS.getD s.sectionIndex "")]) := by
  simp only [dispatch]
  rw [if_neg (Nat.not_le.mpr hlt), hempty]

/-! ### C2: invalid answers leave the session unchanged -/

/-- C2: in `WAITING_ANSWER` with pending question `q`, an inbound text that
does not parse as an integer, or parses outside `[1, q.options.length]`,
leaves the session exactly as it was and produces the validation prompt as
the only reply. -/
theorem c2_invalid_answer_unchanged (s : Session) (q : Question)
    (rawBody : String) (questions : List Question) (rand now : Nat)
    (hstate : s.state = .WAITING_ANSWER) (hq : s.currentQ = some q)
    (hinvalid : parseIntJS (trimJS rawBody) = none ∨
      ∃ num, parseIntJS (trimJS rawBody) = some num ∧
        (num < 1 ∨ num > (q.options.length : Int))) :
    step s rawBody questions rand now = some (s, [validationMsg q]) := by
  have hne : s.state ≠ .IDLE := by
    rw [hstate]; exact fun hc => SState.noConfusion hc
  rw [step_of_ne_idle rawBody questions rand now hne]
  rcases hinvalid with hnone | ⟨num, hnum, hrange⟩
  · rw [stepRest_of_waiting_nan [] _ questions rand now hstate hq hnone]
    simp
  · rw [stepRest_of_waiting_range [] _ questions rand now hstate hq hnum hrange]
    simp

/-- Witness for C2: non-numeric text on a waiting session. -/
theorem c2_invalid_answer_unchanged_witness :
    step sampleWaiting "abc" [] 0 0 = some (sampleWaiting, [validationMsg sampleQ]) :=
  c2_invalid_answer_unchanged sampleWaiting sampleQ "abc" [] 0 0 rfl rfl
    (Or.inl (by decide))

/-! ### C9: empty pool skips the section -/

/-- C9: in `ASKING` with an in-range `sectionIndex` whose pool of unanswered
questions is empty, one step advances `sectionIndex` by exactly one, leaves
every other field (in particular `state = ASKING` and `currentQ`) unchanged,
and replies only with the skip notice: no further dispatch happens within the
same message. -/
theorem c9_empty_pool_skips (s : Session) (rawBody : String)
    (questions : List Question) (rand now : Nat)
    (hstate : s.state = .ASKING) (hlt : s.sectionIndex < SECTIONS.length)
    (hempty : pickNextQuestion questions (SECTIONS.getD s.sectionIndex "")
        (askedIdsFor s.answers (SECTIONS.getD s.sectionIndex "")) rand = none) :
    step s rawBody questions rand now =
      some ({ s with sectionIndex := s.sectionIndex + 1 },
            [skipMsg (SECTIONS.getD s.sectionIndex "")]) := by
  have hne : s.state ≠ .IDLE := by
    rw [hstate]; exact fun hc => SState.noConfusion hc
  rw [step_of_ne_idle rawBody questions rand now hne,
      stepRest_of_asking [] _ questions rand now hstate,
      dispatch_of_empty_pool questions rand now hlt hempty]
  simp

/-- Witness for C9: an `ASKING` session against an empty question list. -/
theorem c9_empty_pool_skips_witness :
    step sampleAsking "x" [] 0 0 =
      some ({ sampleAsking with sectionIndex := 1 }, [skipMsg "Inference"]) :=
  c9_empty_pool_skips sampleAsking "x" [] 0 0 rfl (by decide) (by decide)

/-! ### C1: the start trigger -/

/-- C1 (code bug): the start trigger fires on the inbound text "starting",
which is not a case-insensitive match of "start" or of "test": by JS
alternation precedence, `/^start|test$/i` accepts any text starting with
"start" or ending with "test".  When it fires it does reset the session:
state `ASKING`, `sectionIndex` 0, empty `answers`. -/
theorem c1_start_trigger_overmatch :
    startMatches "starting" = true ∧
    "starting".data.map Char.toLower ≠ "start".data ∧
    "starting".data.map Char.toLower ≠ "test".data ∧
    stepStart sampleIdleDirty "starting" =
      ({ sampleIdleDirty with state := .ASKING, sectionIndex := 0, answers := [] }, [startAck]) := by
  refine ⟨by decide, by decide, by decide, ?_⟩
  unfold stepStart
  rw [if_pos ⟨rfl, by decide⟩]

/-! ### C5: scoring totals and percentage -/

/-- The scoring fold accumulates, per section of `L` in order, the correct
count into the first component and the answer count into the second. -/
lemma scoreTotals_fold (answers : List Answer) (L : List String) (acc : Nat × Nat) :
    L.foldl
      (fun acc s =>
        let m := answers.filter (fun a => a.sect == s)
        (acc.1 + (m.filter (fun a => a.isCorrect)).length, acc.2 + m.length))
      acc =
      (acc.1 + (L.map (fun s =>
        ((answers.filter (fun a => a.sect == s)).filter (fun a => a.isCorrect)).length)).sum,
       acc.2 + (L.map (fun s =>
        (answers.filter (fun a => a.sect == s)).length)).sum) := by
  induction L generalizing acc with
  | nil => simp
  | cons x L ih =>
    simp only [List.foldl_cons, List.map_cons, List.sum_cons, ih]
    simp [Prod.mk.injEq, Nat.add_assoc]

/-- Closed form of `scoreTotals`: sums over `SECTIONS` of per-section counts. -/
lemma scoreTotals_eq (answers : List Answer) :
    scoreTotals answers =
      ((SECTIONS.map (fun s =>
        ((answers.filter (fun a => a.sect == s)).filter (fun a => a.isCorrect)).length)).sum,
       (SECTIONS.map (fun s =>
        (answers.filter (fun a => a.sect == s)).length)).sum) := by
  unfold scoreTotals
  rw [scoreTotals_fold]
  simp

/-- Rounding: `Math.round((100 * c) / t)` agrees with the natural-division closed form
`(200 * c + t) / (2 * t)` for positive `t`. -/
lemma round_ratio_eq (c t : Nat) (ht : t ≠ 0) :
    round ((100 * c : ℚ) / t) = (((200 * c + t) / (2 * t) : Nat) : Int) := by
  have ht' : (t : ℚ) ≠ 0 := Nat.cast_ne_zero.mpr ht
  rw [round_eq]
  have hx : (100 * c : ℚ) / t + 1 / 2 = ((200 * c + t : Nat) : ℚ) / ((2 * t : Nat) : ℚ) := by
    push_cast
    field_simp
    ring
  rw [hx, ← Int.natCast_floor_eq_floor (by positivity), Nat.floor_div_eq_div]

/-- C5: for every answers list, `totalCorrect ≤ total`, `total` is the sum of
the per-section totals over the fixed section order, and the reported
percentage is `round(100 * totalCorrect / total)` — equal to the executable
`(200 * totalCorrect + total) / (2 * total)` — with percentage `0` when
`total = 0`. -/
theorem c5_scoring (answers : List Answer) :
    (scoreTotals answers).1 ≤ (scoreTotals answers).2 ∧
    (scoreTotals answers).2 =
      (SECTIONS.map (fun s => (answers.filter (fun a => a.sect == s)).length)).sum ∧
    ((scoreTotals answers).2 = 0 →
      pctOf (scoreTotals answers).1 (scoreTotals answers).2 = 0) ∧
    ((scoreTotals answers).2 ≠ 0 →
      pctOf (scoreTotals answers).1 (scoreTotals answers).2 =
        round ((100 * (scoreTotals answers).1 : ℚ) / (scoreTotals answers).2) ∧
      pctOf (scoreTotals answers).1 (scoreTotals answers).2 =
        (((200 * (scoreTotals answers).1 + (scoreTotals answers).2) /
          (2 * (scoreTotals answers).2) : Nat) : Int)) := by
  refine ⟨?_, ?_, ?_, ?_⟩
  · rw [scoreTotals_eq]
    exact List.sum_le_sum (fun s _ => List.length_filter_le _ _)
  · rw [scoreTotals_eq]
  · intro h0
    unfold pctOf
    rw [if_pos h0]
  · intro h0
    unfold pctOf
    rw [if_neg h0]
    exact ⟨rfl, round_ratio_eq _ _ h0⟩

/-- Witness for C5: one wrong answer in one section scores 0/1 = 0%. -/
theorem c5_scoring_witness :
    (scoreTotals [sampleWrongAnswer]).1 ≤ (scoreTotals [sampleWrongAnswer]).2 ∧
    pctOf (scoreTotals [sampleWrongAnswer]).1 (scoreTotals [sampleWrongAnswer]).2 =
      (((200 * (scoreTotals [sampleWrongAnswer]).1 + (scoreTotals [sampleWrongAnswer]).2) /
        (2 * (scoreTotals [sampleWrongAnswer]).2) : Nat) : Int) :=
  ⟨(c5_scoring [sampleWrongAnswer]).1,
   ((c5_scoring [sampleWrongAnswer]).2.2.2 (by decide)).2⟩

/-! ### C6: feedback lines -/

/-- Folding `pushLine` over a section list appends, in order, the lines of
the sections that emit one. -/
lemma foldl_pushLine_eq_filterMap (questions : List Question)
    (answers : List Answer) (L : List String) (acc : List String) :
    L.foldl (pushLine questions answers) acc =
      acc ++ L.filterMap (fun s => feedbackLineFor questions answers s) := by
  induction L generalizing acc with
  | nil => simp
  | cons x L ih =>
    cases hfx : feedbackLineFor questions answers x with
    | none => simp [List.filterMap_cons, hfx, ih, pushLine]
    | some b => simp [List.filterMap_cons, hfx, ih, pushLine]

/-- Rewriting `filterMap` into `String` as a filter of the emitting elements followed by
extraction. -/
lemma filterMap_eq_filter_map {α : Type} (f : α → Option String) (L : List α) :
    L.filterMap f =
      (L.filter (fun a => (f a).isSome)).map (fun a => (f a).getD "") := by
  induction L with
  | nil => rfl
  | cons x L ih =>
    cases hfx : f x with
    | none => simp [List.filterMap_cons, hfx, ih]
    | some b => simp [List.filterMap_cons, hfx, ih]

/-- C6: the summary's feedback list consists of exactly one line per section,
taken in the fixed section order, among those sections that emit a line; and a
section emits a line exactly when it has at least one incorrect answer and its
first incorrect question is found with a present, non-empty rationale. -/
theorem c6_feedback_lines (questions : List Question) (answers : List Answer) :
    rationaleLines questions answers =
      (SECTIONS.filter (fun s => (feedbackLineFor questions answers s).isSome)).map
        (fun s => (feedbackLineFor questions answers s).getD "") ∧
    (∀ s, (feedbackLineFor questions answers s).isSome = true ↔
      ∃ w ws, wrongIdsFor answers s = w :: ws ∧
        ∃ qw, questions.find? (fun q => q.id == w) = some qw ∧
          ∃ r, qw.rationale = some r ∧ r ≠ "") := by
  constructor
  · unfold rationaleLines
    rw [foldl_pushLine_eq_filterMap]
    simp [filterMap_eq_filter_map]
  · intro s
    unfold feedbackLineFor
    cases hw : wrongIdsFor answers s with
    | nil => simp
    | cons w ws =>
      cases hf : questions.find? (fun q => q.id == w) with
      | none => simp [hf]
      | some qw =>
        cases hr : qw.rationale with
        | none => simp [hf, hr, optTruthy]
        | some r =>
          by_cases hr0 : r = ""
          · simp [hf, hr, hr0, optTruthy]
          · simp [hf, hr, hr0, optTruthy]

/-- Witness for C6: a single wrong answer whose question has rationale "why"
emits a feedback line for its section. -/
theorem c6_feedback_lines_witness :
    (feedbackLineFor [sampleQ] [sampleWrongAnswer] "Inference").isSome = true :=
  ((c6_feedback_lines [sampleQ] [sampleWrongAnswer]).2 "Inference").mpr
    ⟨"q1", [], by decide, sampleQ, by decide, "why", by decide, by decide⟩

/-! ### Invariant preservation (C4, C8, C10) -/

/-- Injectivity helper for `some`-wrapped pairs. -/
lemma some_pair_inj {α β : Type} {a a' : α} {b b' : β}
    (h : (some (a, b) : Option (α × β)) = some (a', b')) : a = a' ∧ b = b' := by
  cases h
  exact ⟨rfl, rfl⟩

/-- The completion branch of `dispatch`. -/
lemma dispatch_of_done {s : Session} (questions : List Question) (rand now : Nat)
    (hge : SECTIONS.length ≤ s.sectionIndex) :
    dispatch s questions rand now =
      ({ s with state := .IDLE },
       [scoreMsg (scoreTotals s.answers).1 (scoreTotals s.answers).2
          (pctOf (scoreTotals s.answers).1 (scoreTotals s.answers).2)
          (rationaleLines questions s.answers)]) := by
  simp only [dispatch]
  rw [if_pos hge]

/-- The question-sending branch of `dispatch`. -/
lemma dispatch_of_some_pool {s : Session} {q : Question}
    (questions : List Question) (rand now : Nat)
    (hlt : s.sectionIndex < SECTIONS.length)
    (hpick : pickNextQuestion questions (SECTIONS.getD s.sectionIndex "")
        (askedIdsFor s.answers (SECTIONS.getD s.sectionIndex "")) rand = some q) :
    dispatch s questions rand now =
      ({ s with currentQ := some q, qStart := now, state := .WAITING_ANSWER,
                sectionIndex := s.sectionIndex + 1 },
       [questionMsg (SECTIONS.getD s.sectionIndex "") q]) := by
  simp only [dispatch]
  rw [if_neg (Nat.not_le.mpr hlt), hpick]

/-- Preservation: `dispatch` preserves the session invariant from an `ASKING` session. -/
lemma dispatch_inv {s : Session} (questions : List Question) (rand now : Nat)
    (hstate : s.state = .ASKING) (hinv : SessionInv s) :
    SessionInv (dispatch s questions rand now).1 := by
  obtain ⟨h1, h2, h3, -⟩ := hinv
  by_cases hge : SECTIONS.length ≤ s.sectionIndex
  · rw [dispatch_of_done questions rand now hge]
    unfold SessionInv
    dsimp only
    refine ⟨h1, h2, h3, fun hw => absurd hw (by simp)⟩
  · have hlt : s.sectionIndex < SECTIONS.length := Nat.lt_of_not_le hge
    cases hpick : pickNextQuestion questions (SECTIONS.getD s.sectionIndex "")
        (askedIdsFor s.answers (SECTIONS.getD s.sectionIndex "")) rand with
    | none =>
      rw [dispatch_of_empty_pool questions rand now hlt hpick]
      unfold SessionInv
      dsimp only
      refine ⟨by omega, h2, ?_, ?_⟩
      · intro a ha
        obtain ⟨i, hi, hsec⟩ := h3 a ha
        exact ⟨i, by omega, hsec⟩
      · intro hw
        rw [hstate] at hw
        exact absurd hw (by simp)
    | some q =>
      obtain ⟨hqmem, hqsec, hqid⟩ := pickNextQuestion_some_spec hpick
      rw [dispatch_of_some_pool questions rand now hlt hpick]
      unfold SessionInv
      dsimp only
      refine ⟨by omega, h2, ?_, ?_⟩
      · intro a ha
        obtain ⟨i, hi, hsec⟩ := h3 a ha
        exact ⟨i, by omega, hsec⟩
      · intro _
        refine ⟨q, rfl, by omega, ?_, ?_⟩
        · rw [Nat.add_sub_cancel]
          exact hqsec
        · intro hmem
          obtain ⟨a, ha, hasec⟩ := List.mem_map.mp hmem
          obtain ⟨i, hi, hsec⟩ := h3 a ha
          exact SECTIONS_getD_ne s.sectionIndex hlt i hi
            (by rw [← hsec, hasec, hqsec])

/-- Recording a valid answer preserves the invariant and lands in `ASKING`. -/
lemma recordAnswer_inv {s : Session} {q : Question} (num : Int) (now : Nat)
    (hstate : s.state = .WAITING_ANSWER) (hq : s.currentQ = some q)
    (hinv : SessionInv s) :
    SessionInv (recordAnswer s q num now) ∧
      (recordAnswer s q num now).state = .ASKING := by
  obtain ⟨h1, h2, h3, h4⟩ := hinv
  obtain ⟨q', hq', hpos, hqsec, hqnot⟩ := h4 hstate
  have hqq : q' = q := by
    rw [hq] at hq'
    exact (Option.some_inj.mp hq').symm
  subst hqq
  unfold recordAnswer SessionInv
  dsimp only
  refine ⟨⟨h1, ?_, ?_, by simp⟩, rfl⟩
  · rw [List.map_append, List.nodup_append]
    refine ⟨h2, by simp, ?_⟩
    intro x hx hx1
    simp only [mkAnswer, List.map_cons, List.map_nil, List.mem_singleton] at hx1
    subst hx1
    exact hqnot hx
  · intro a ha
    rw [List.mem_append] at ha
    rcases ha with ha | ha
    · obtain ⟨i, hi, hsec⟩ := h3 a ha
      exact ⟨i, hi, hsec⟩
    · rw [List.mem_singleton] at ha
      subst ha
      exact ⟨s.sectionIndex - 1, by omega, hqsec⟩

/-- The start trigger preserves the session invariant. -/
lemma stepStart_inv {s : Session} (body : String) (hinv : SessionInv s) :
    SessionInv (stepStart s body).1 := by
  unfold stepStart
  split
  · refine ⟨Nat.zero_le _, by simp, by simp, fun hw => absurd hw (by simp)⟩
  · exact hinv

/-- Preservation: `stepRest` preserves the session invariant. -/
lemma stepRest_inv {s1 s' : Session} {out1 out : List String} {body : String}
    {questions : List Question} {rand now : Nat} (hinv : SessionInv s1)
    (h : stepRest s1 out1 body questions rand now = some (s', out)) :
    SessionInv s' := by
  by_cases hw : s1.state = .WAITING_ANSWER
  · obtain ⟨q, hq, -, -, -⟩ := hinv.2.2.2 hw
    cases hnum : parseIntJS body with
    | none =>
      rw [stepRest_of_waiting_nan out1 body questions rand now hw hq hnum] at h
      rw [← (some_pair_inj h).1]
      exact hinv
    | some num =>
      by_cases hrange : num < 1 ∨ num > (q.options.length : Int)
      · rw [stepRest_of_waiting_range out1 body questions rand now hw hq hnum hrange] at h
        rw [← (some_pair_inj h).1]
        exact hinv
      · rw [stepRest_of_waiting_valid out1 body questions rand now hw hq hnum hrange] at h
        rw [← (some_pair_inj h).1]
        obtain ⟨hrec, hrecstate⟩ := recordAnswer_inv num now hw hq hinv
        exact dispatch_inv questions rand now hrecstate hrec
  · by_cases ha : s1.state = .ASKING
    · rw [stepRest_of_asking out1 body questions rand now ha] at h
      rw [← (some_pair_inj h).1]
      exact dispatch_inv questions rand now ha hinv
    · rw [stepRest_of_idle out1 body questions rand now hw ha] at h
      rw [← (some_pair_inj h).1]
      exact hinv

/-- One webhook step preserves the session invariant. -/
lemma step_inv {s s' : Session} {rawBody : String} {questions : List Question}
    {rand now : Nat} {out : List String} (hinv : SessionInv s)
    (h : step s rawBody questions rand now = some (s', out)) : SessionInv s' := by
  rw [step_eq] at h
  exact stepRest_inv (stepStart_inv _ hinv) h

/-- Every reachable session satisfies the invariant. -/
lemma reachable_inv {s : Session} (h : Reachable s) : SessionInv s := by
  induction h with
  | init now =>
    refine ⟨Nat.zero_le _, by simp [freshSession], by simp [freshSession],
      fun hw => absurd hw (by simp [freshSession])⟩
  | next hr hstep ih => exact step_inv ih hstep

/-- Totality: `stepRest` cannot crash on a session satisfying the invariant. -/
lemma stepRest_isSome {s1 : Session} (out1 : List String) (body : String)
    (questions : List Question) (rand now : Nat) (hinv : SessionInv s1) :
    (stepRest s1 out1 body questions rand now).isSome = true := by
  by_cases hw : s1.state = .WAITING_ANSWER
  · obtain ⟨q, hq, -, -, -⟩ := hinv.2.2.2 hw
    cases hnum : parseIntJS body with
    | none =>
      rw [stepRest_of_waiting_nan out1 body questions rand now hw hq hnum]
      rfl
    | some num =>
      by_cases hrange : num < 1 ∨ num > (q.options.length : Int)
      · rw [stepRest_of_waiting_range out1 body questions rand now hw hq hnum hrange]
        rfl
      · rw [stepRest_of_waiting_valid out1 body questions rand now hw hq hnum hrange]
        rfl
  · by_cases ha : s1.state = .ASKING
    · rw [stepRest_of_asking out1 body questions rand now ha]
      rfl
    · rw [stepRest_of_idle out1 body questions rand now hw ha]
      rfl

/-- Totality: `step` cannot crash on a session satisfying the invariant. -/
lemma step_isSome {s : Session} (rawBody : String) (questions : List Question)
    (rand now : Nat) (hinv : SessionInv s) :
    (step s rawBody questions rand now).isSome = true := by
  rw [step_eq]
  exact stepRest_isSome _ _ questions rand now (stepStart_inv _ hinv)

/-! ### C4, C8, C10: reachability invariants -/

/-- C4: in every reachable session, the answers list has at most one entry
per section and hence at most one entry per (section, questionId) pair. -/
theorem c4_answers_unique (s : Session) (h : Reachable s) :
    (s.answers.map Answer.sect).Nodup ∧
    (s.answers.map (fun a => (a.sect, a.qid))).Nodup := by
  have h2 := (reachable_inv h).2.1
  refine ⟨h2, ?_⟩
  refine List.Nodup.of_map Prod.fst ?_
  have hmm : (s.answers.map (fun a => (a.sect, a.qid))).map Prod.fst =
      s.answers.map Answer.sect := by
    rw [List.map_map]
    rfl
  rw [hmm]
  exact h2

/-- Witness for C4 at the fresh session. -/
theorem c4_answers_unique_witness :
    ((freshSession 0).answers.map Answer.sect).Nodup ∧
    ((freshSession 0).answers.map (fun a => (a.sect, a.qid))).Nodup :=
  c4_answers_unique (freshSession 0) (Reachable.init 0)

/-- C8: in every reachable session, `0 ≤ sectionIndex ≤ SECTIONS.length`. -/
theorem c8_sectionIndex_bounds (s : Session) (h : Reachable s) :
    0 ≤ s.sectionIndex ∧ s.sectionIndex ≤ SECTIONS.length :=
  ⟨Nat.zero_le _, (reachable_inv h).1⟩

/-- Witness for C8 at the fresh session. -/
theorem c8_sectionIndex_bounds_witness :
    0 ≤ (freshSession 0).sectionIndex ∧
      (freshSession 0).sectionIndex ≤ SECTIONS.length :=
  c8_sectionIndex_bounds (freshSession 0) (Reachable.init 0)

/-- C10: in every reachable session, `WAITING_ANSWER` implies the pending
question is present, and consequently no webhook step ever reaches the
modelled `TypeError` (the step is always `some`). -/
theorem c10_waiting_has_question (s : Session) (h : Reachable s) :
    (s.state = .WAITING_ANSWER → s.currentQ.isSome = true) ∧
    (∀ rawBody questions rand now,
      (step s rawBody questions rand now).isSome = true) := by
  have hinv := reachable_inv h
  refine ⟨fun hw => ?_, fun rawBody questions rand now =>
    step_isSome rawBody questions rand now hinv⟩
  obtain ⟨q, hq, -, -, -⟩ := hinv.2.2.2 hw
  rw [hq]
  rfl

/-- Witness for C10: a concrete step from the fresh session. -/
theorem c10_waiting_has_question_witness :
    (step (freshSession 0) "hi" [] 0 0).isSome = true :=
  (c10_waiting_has_question (freshSession 0) (Reachable.init 0)).2 "hi" [] 0 0

end WGBot
